import Mathlib

/-!
Shallow embedding of the PlayListory core (a browser-only Spotify PKCE OAuth
client with paginated fetching and a tiered persistence cache) together with
proofs of the spec's testable properties.

Sources embedded:
* `src/spotifyAuth.js`  — PKCE login, redirect callback, token storage/refresh
* `src/cacheDb.js`      — tiered playlists cache (IndexedDB primary,
                          localStorage backup)
* `src/spotifyApi.js`   — authorized fetch, cursor pagination, assembler

Browser primitives (localStorage, fetch, crypto, IndexedDB) are modelled by
explicit state records and response oracles passed as arguments; every
network request a function issues is returned in an explicit request count
or log so that "no network call occurs" is a provable statement.
-/

namespace PlayListory

/-- JS truthiness for a nullable string (`null`/`undefined` and `""` are falsy). -/
def truthyS : Option String → Bool
  | none => false
  | some s => s ≠ ""

/-- JS truthiness for a nullable number (`null`/`undefined` and `0` are falsy). -/
def truthyN : Option Nat → Bool
  | none => false
  | some n => n ≠ 0

/-- The five localStorage entries used by `spotifyAuth.js` (`LS_KEYS`).
`tokenExpiry` is stored by the source as the decimal string of an epoch-ms
number and read back with `Number(...)`; since that round trip is the
identity on naturals we keep the numeric value. -/
structure LS where
  codeVerifier : Option String
  oauthState : Option String
  token : Option String
  tokenExpiry : Option Nat
  refreshToken : Option String
deriving Repr, DecidableEq

/-- A token-endpoint JSON response, restricted to the fields the source
consumes (`access_token`, `expires_in`, `refresh_token`), plus the HTTP
success flag `res.ok`. -/
structure TokenResp where
  ok : Bool
  access_token : Option String
  expires_in : Option Nat
  refresh_token : Option String
deriving Repr, DecidableEq

/-- `storeTokenResponse(json)` from `spotifyAuth.js`: each field is written
only when the response carries a truthy value for it; `tokenExpiry` becomes
`now + expires_in * 1000`. -/
def storeTokenResponse (now : Nat) (json : TokenResp) (ls : LS) : LS :=
  { ls with
    token := if truthyS json.access_token then json.access_token else ls.token
    tokenExpiry :=
      if truthyN json.expires_in then some (now + json.expires_in.getD 0 * 1000)
      else ls.tokenExpiry
    refreshToken :=
      if truthyS json.refresh_token then json.refresh_token else ls.refreshToken }

/-- `getStoredAccessToken()` from `spotifyAuth.js`.  Over naturals,
`now ≥ expiry - 30000` (truncated subtraction) decides exactly as the JS
signed comparison does, because `now ≥ 0`. -/
def getStoredAccessToken (now : Nat) (ls : LS) : Option String :=
  let expiry := ls.tokenExpiry.getD 0
  if ¬ truthyS ls.token ∨ expiry = 0 then none
  else if expiry - 30000 ≤ now then none
  else ls.token

/-- `hasRefreshToken()` from `spotifyAuth.js`. -/
def hasRefreshToken (ls : LS) : Bool :=
  truthyS ls.refreshToken

/-- `clearTokens()` from `spotifyAuth.js`: removes all five entries. -/
def clearTokens (_ls : LS) : LS :=
  ⟨none, none, none, none, none⟩

/-- `refreshAccessToken({clientId})` from `spotifyAuth.js`.  The token
endpoint is modelled by the oracle `resp`; the result is the returned
access token (or `none`), the updated storage, and the number of network
requests issued. -/
def refreshAccessToken (now : Nat) (ls : LS) (resp : TokenResp) :
    Option String × LS × Nat :=
  if ¬ truthyS ls.refreshToken then (none, ls, 0)
  else if ¬ resp.ok then (none, ls, 1)
  else
    let ls' := storeTokenResponse now resp ls
    ((if truthyS resp.access_token then resp.access_token else none), ls', 1)

/-- `getValidAccessToken(options)` from `spotifyAuth.js`. -/
def getValidAccessToken (now : Nat) (ls : LS) (resp : TokenResp) :
    Option String × LS × Nat :=
  match getStoredAccessToken now ls with
  | some t => (some t, ls, 0)
  | none => refreshAccessToken now ls resp

/-- The query parameters of the redirect URL that `handleRedirectCallback`
reads (`code`, `state`); `none` models an absent parameter, `some ""` a
present-but-empty one (what `URLSearchParams.get` distinguishes). -/
structure CallbackUrl where
  code : Option String
  state : Option String
deriving Repr, DecidableEq

instance {ε α : Type} [DecidableEq ε] [DecidableEq α] : DecidableEq (Except ε α)
  | .ok a, .ok b =>
    if h : a = b then isTrue (by rw [h]) else isFalse (by intro hc; injection hc; contradiction)
  | .ok _, .error _ => isFalse (by intro h; cases h)
  | .error _, .ok _ => isFalse (by intro h; cases h)
  | .error e, .error f =>
    if h : e = f then isTrue (by rw [h]) else isFalse (by intro hc; injection hc; contradiction)

/-- The outcome of `handleRedirectCallback`: the returned boolean or thrown
error message, the localStorage state after the call, the number of token
endpoint requests issued, and whether the visible URL was rewritten by
`history.replaceState`. -/
structure CallbackOutcome where
  result : Except String Bool
  store : LS
  requests : Nat
  urlReplaced : Bool
deriving Repr, DecidableEq

/-- `handleRedirectCallback(options)` from `spotifyAuth.js`, inlining
`exchangeCodeForToken` exactly as the source sequences it: no code → `false`;
absent/empty/mismatched state → throw `"State mismatch"` before any network
request; missing verifier → throw; non-OK token response → throw
`"Token exchange failed"`; success → store tokens, clean the URL, `true`. -/
def handleRedirectCallback (url : CallbackUrl) (ls : LS) (now : Nat)
    (resp : TokenResp) : CallbackOutcome :=
  if ¬ truthyS url.code then ⟨.ok false, ls, 0, false⟩
  else if ¬ truthyS url.state ∨ url.state ≠ ls.oauthState then
    ⟨.error "State mismatch", ls, 0, false⟩
  else if ¬ truthyS ls.codeVerifier then
    ⟨.error "Missing PKCE code_verifier", ls, 0, false⟩
  else if ¬ resp.ok then ⟨.error "Token exchange failed", ls, 1, false⟩
  else ⟨.ok true, storeTokenResponse now resp ls, 1, true⟩

/-! ### PKCE material: `generateRandomString`, `uint8ToBase64Url`, `sha256Base64Url` -/

/-- The standard base64 alphabet `btoa` encodes with. -/
def b64Alphabet : List Char :=
  "ABCDEFGHIJKLMNOPQRSTUVWXYZabcdefghijklmnopqrstuvwxyz0123456789+/".toList

def b64Char (n : Nat) : Char := b64Alphabet.getD n 'A'

/-- `btoa` on a byte sequence: standard base64 with `'='` padding
(6-bit groups; bytes are values `< 256`). -/
def btoaChunks : List Nat → List Char
  | [] => []
  | [a] => [b64Char (a / 4), b64Char (a % 4 * 16), '=', '=']
  | [a, b] => [b64Char (a / 4), b64Char (a % 4 * 16 + b / 16), b64Char (b % 16 * 4), '=']
  | a :: b :: c :: rest =>
      b64Char (a / 4) :: b64Char (a % 4 * 16 + b / 16) ::
        b64Char (b % 16 * 4 + c / 64) :: b64Char (c % 64) :: btoaChunks rest

/-- The two `.replace` calls of `uint8ToBase64Url`: `'+' → '-'`, `'/' → '_'`. -/
def urlSafeChar (ch : Char) : Char :=
  if ch = '+' then '-' else if ch = '/' then '_' else ch

/-- The `.replace(/=+$/, '')` call: strip every trailing `'='`. -/
def dropTrailingEq (cs : List Char) : List Char :=
  (cs.reverse.dropWhile (fun ch => ch = '=')).reverse

/-- `uint8ToBase64Url(uint8)` from `spotifyAuth.js`:
`btoa` then the three `.replace` steps. -/
def uint8ToBase64Url (bytes : List Nat) : List Char :=
  dropTrailingEq ((btoaChunks bytes).map urlSafeChar)

/-- The base64url alphabet, for the spec-side encoder. -/
def b64UrlAlphabet : List Char :=
  "ABCDEFGHIJKLMNOPQRSTUVWXYZabcdefghijklmnopqrstuvwxyz0123456789-_".toList

def b64UrlChar (n : Nat) : Char := b64UrlAlphabet.getD n 'A'

/-- Spec-side definition: unpadded base64url encoding, written directly from
the spec's words ("base64url(SHA-256(verifier))"), to be compared with the
source's `uint8ToBase64Url`. -/
def base64UrlEncode : List Nat → List Char
  | [] => []
  | [a] => [b64UrlChar (a / 4), b64UrlChar (a % 4 * 16)]
  | [a, b] => [b64UrlChar (a / 4), b64UrlChar (a % 4 * 16 + b / 16), b64UrlChar (b % 16 * 4)]
  | a :: b :: c :: rest =>
      b64UrlChar (a / 4) :: b64UrlChar (a % 4 * 16 + b / 16) ::
        b64UrlChar (b % 16 * 4 + c / 64) :: b64UrlChar (c % 64) :: base64UrlEncode rest

/-- Number of `'='` padding characters base64 appends to the encoding of
`n` bytes. -/
def padLen (n : Nat) : Nat := if n % 3 = 0 then 0 else 3 - n % 3

/-- `sha256Base64Url(input)` from `spotifyAuth.js`; the digest itself comes
from the browser's `crypto.subtle.digest('SHA-256', ...)`, modelled as the
oracle `sha`. -/
def sha256Base64Url (sha : String → List Nat) (input : String) : List Char :=
  uint8ToBase64Url (sha input)

def hexDigit (n : Nat) : Char := "0123456789abcdef".toList.getD n '0'

/-- `('0' + byte.toString(16)).slice(-2)` for a byte value `< 256`. -/
def byteToHex (b : Nat) : List Char := [hexDigit (b / 16), hexDigit (b % 16)]

/-- `generateRandomString(length)` from `spotifyAuth.js`; the
`crypto.getRandomValues` output is the oracle argument `bytes`
(a list of `length` byte values). -/
def generateRandomString (bytes : List Nat) : List Char :=
  (bytes.map byteToHex).flatten

/-- The verifier/challenge/state triple `beginLogin` derives (lines 61–63 of
`spotifyAuth.js`): verifier from 64 random bytes, challenge via
`sha256Base64Url`, state from 16 random bytes. -/
structure PkceMaterial where
  codeVerifier : List Char
  codeChallenge : List Char
  loginState : List Char

def beginLoginMaterial (sha : String → List Nat)
    (verifierBytes stateBytes : List Nat) : PkceMaterial :=
  let codeVerifier := generateRandomString verifierBytes
  ⟨codeVerifier, sha256Base64Url sha (String.mk codeVerifier),
    generateRandomString stateBytes⟩

/-! ### `apiFetch` and pagination (`spotifyApi.js`) -/

/-- A resource-API HTTP response: status code, body text, parsed JSON. -/
structure ApiResp (J : Type) where
  status : Nat
  body : String
  json : J

/-- `res.ok` of the Fetch API: status in 200..299. -/
def respOk (status : Nat) : Bool := 200 ≤ status && status ≤ 299

/-- The message `apiFetch` throws for a generic non-2xx response
(the `ApiError(status, body)` shape of the spec). -/
def apiErrorMsg (status : Nat) (body : String) : String :=
  "Spotify API error " ++ toString status ++ ": " ++ body

/-- `apiFetch(path, options)` from `spotifyApi.js`, given the token
`getValidAccessToken` produced and the response the server returns:
no token → throw; 401 → throw `"Unauthorized"`; other non-2xx → throw
the `ApiError` message; else the JSON body. -/
def apiFetch {J : Type} (token : Option String) (resp : ApiResp J) :
    Except String J :=
  if ¬ truthyS token then .error "Not authenticated with Spotify"
  else if resp.status = 401 then .error "Unauthorized"
  else if ¬ respOk resp.status then .error (apiErrorMsg resp.status resp.body)
  else .ok resp.json

/-- One page of a paginated endpoint: the `items` array (`none` models a
missing field) and the `next` URL (`none` models `null`). -/
structure Page (ι : Type) where
  items : Option (List ι)
  next : Option String

/-- The `while (url)` cursor loop shared by `getAllCurrentUserPlaylists`,
`getAllSavedTracks` and `getAllPlaylistTracks` (the spec's `fetchAllPages`):
request the current URL, push the mapped `items`, continue with `page.next`.
The server is modelled as the sequence of pages it returns to successive
requests; the result pairs the flattened items with the log of URLs
requested, in request order.  (The `server = []` case while the URL is
still truthy is unreachable under the chain hypotheses of the theorems.) -/
def fetchAllPages {ι α : Type} (mapper : ι → α) :
    Option String → List (Page ι) → List α × List String
  | url, server =>
    if ¬ truthyS url then ([], [])
    else
      match server with
      | [] => ([], [])
      | p :: rest =>
        let (ts, log) := fetchAllPages mapper p.next rest
        ((p.items.getD []).map mapper ++ ts, url.getD "" :: log)

/-! ### The collection assembler `getPlaylistsWithTracks` (`spotifyApi.js`) -/

/-- The owner object of a playlist as `/me/playlists` returns it. -/
structure OwnerMeta where
  id : Option String
  display_name : Option String
deriving Repr, DecidableEq

/-- The fields of a returned playlist that `getPlaylistsWithTracks` reads. -/
structure PlaylistMeta where
  id : String
  name : String
  owner : Option OwnerMeta
deriving Repr, DecidableEq

/-- The `raw` marker attached to each assembled playlist: either the
virtual-playlist marker `{type, source}` or the `{owner}` echo
(`none` inside `owned` models the `undefined` owner field). -/
inductive RawInfo
  | virt (type source : String)
  | owned (owner : Option (Option String × Option String))
deriving Repr, DecidableEq

/-- An assembled playlist entry of `getPlaylistsWithTracks`'s result. -/
structure Playlist (τ : Type) where
  id : String
  name : String
  owner : Option String
  tracks : List τ
  raw : RawInfo

/-- `p.owner?.display_name || p.owner?.id || null`. -/
def ownerLabel : Option OwnerMeta → Option String
  | none => none
  | some o =>
    if truthyS o.display_name then o.display_name
    else if truthyS o.id then o.id
    else none

/-- `p.owner ? { id: p.owner.id || null, display_name: p.owner.display_name || null } : undefined`. -/
def rawOwner : Option OwnerMeta → Option (Option String × Option String)
  | none => none
  | some o =>
    some (if truthyS o.id then o.id else none,
      if truthyS o.display_name then o.display_name else none)

/-- The entry pushed for a named playlist `p` with fetched tracks `ts`. -/
def mkNamed {τ : Type} (p : PlaylistMeta) (ts : List τ) : Playlist τ :=
  ⟨p.id, p.name, ownerLabel p.owner, ts, .owned (rawOwner p.owner)⟩

/-- The synthesized virtual liked-songs playlist. -/
def likedVirtual {τ : Type} (ts : List τ) : Playlist τ :=
  ⟨"liked-songs-virtual", "liked songs ⭐", none, ts, .virt "virtual" "liked_songs"⟩

/-- The `for (const p of playlists)` loop of `getPlaylistsWithTracks`:
fetch each named playlist's tracks in order; a failure rejects the whole
function, so later playlists are never requested.  Returns the ids
requested (in order) together with the outcome. -/
def assembleNamed {τ E : Type} (fetchTracks : String → Except E (List τ)) :
    List PlaylistMeta → List String × Except E (List (Playlist τ))
  | [] => ([], .ok [])
  | p :: rest =>
    match fetchTracks p.id with
    | .error e => ([p.id], .error e)
    | .ok ts =>
      match assembleNamed fetchTracks rest with
      | (log, .error e) => (p.id :: log, .error e)
      | (log, .ok pls) => (p.id :: log, .ok (mkNamed p ts :: pls))

/-- `getPlaylistsWithTracks()` from `spotifyApi.js`, given the already
fetched playlist list and oracles for the liked-songs fetch and the
per-playlist track fetches: the liked fetch is wrapped in
`try { ... } catch { /* ignore */ }`, so its failure only omits the
virtual playlist; a named playlist's failure propagates. -/
def getPlaylistsWithTracks {τ E : Type} (playlists : List PlaylistMeta)
    (liked : Except E (List τ)) (fetchTracks : String → Except E (List τ)) :
    List String × Except E (List (Playlist τ)) :=
  let head : List (Playlist τ) :=
    match liked with
    | .ok ts => [likedVirtual ts]
    | .error _ => []
  match assembleNamed fetchTracks playlists with
  | (log, .error e) => (log, .error e)
  | (log, .ok pls) => (log, .ok (head ++ pls))

/-! ### The tiered playlists cache (`cacheDb.js`, tiered variant) -/

/-- The user summary passed to `savePlaylistsCache`. -/
structure UserInput where
  id : Option String
  display_name : Option String

/-- A cache record as stored (minus the constant `key` field). -/
structure CacheRecord (α : Type) where
  data : α
  user : Option (Option String × Option String)
  createdAt : Nat

/-- The two tiers: the IndexedDB record under `PLAYLISTS_KEY` and the
localStorage backup under `BACKUP_KEY`.  The backup is persisted as JSON
text; `JSON.parse ∘ JSON.stringify` is the identity on these records, so
the structured value is kept. -/
structure CacheState (α : Type) where
  idb : Option (CacheRecord α)
  backup : Option (CacheRecord α)

/-- What `loadPlaylistsCache` resolves to when a record is found. -/
structure LoadResult (α : Type) where
  playlists : α
  user : Option (Option String × Option String)
  createdAt : Option Nat

/-- `user ? { id: user.id || null, display_name: user.display_name || null } : null`. -/
def userSummary : Option UserInput → Option (Option String × Option String)
  | none => none
  | some u =>
    some (if truthyS u.id then u.id else none,
      if truthyS u.display_name then u.display_name else none)

/-- `savePlaylistsCache(playlists, user)` from the tiered `cacheDb.js`:
writes the record to IndexedDB and mirrors `{data, user, createdAt}` into
the localStorage backup; resolves to `{ createdAt }`. -/
def savePlaylistsCache {α : Type} (now : Nat) (playlists : α)
    (user : Option UserInput) (st : CacheState α) : Nat × CacheState α :=
  let record : CacheRecord α := ⟨playlists, userSummary user, now⟩
  (now, { st with idb := some record, backup := some record })

/-- `loadPlaylistsCache()` from the tiered `cacheDb.js`: the IndexedDB
record when present, else the parsed localStorage backup
(whose `createdAt || null` turns a zero timestamp into `null`),
else `null`. -/
def loadPlaylistsCache {α : Type} (st : CacheState α) : Option (LoadResult α) :=
  match st.idb with
  | some r => some ⟨r.data, r.user, some r.createdAt⟩
  | none =>
    match st.backup with
    | some p =>
      some ⟨p.data, p.user, if truthyN (some p.createdAt) then some p.createdAt else none⟩
    | none => none

/-! ## Theorems -/

/-- C9: for every URL that carries no `code` query parameter,
`handleRedirectCallback` returns `false` and performs no side effect:
no error, no token-endpoint request, no change to stored tokens, and
no rewrite of the visible URL. -/
theorem handleRedirectCallback_no_code (url : CallbackUrl) (ls : LS) (now : Nat)
    (resp : TokenResp) (h : url.code = none) :
    handleRedirectCallback url ls now resp = ⟨.ok false, ls, 0, false⟩ := by
  simp [handleRedirectCallback, h, truthyS]

theorem handleRedirectCallback_no_code_witness :
    handleRedirectCallback ⟨none, some "s"⟩ ⟨none, some "s", some "t", some 99, none⟩ 5
        ⟨true, some "a", some 3600, none⟩ =
      ⟨.ok false, ⟨none, some "s", some "t", some 99, none⟩, 0, false⟩ :=
  handleRedirectCallback_no_code _ _ _ _ rfl

/-- C1: for every callback URL carrying a (non-empty) `code` parameter, if
the `state` parameter is absent or differs from the stored OAuth state,
`handleRedirectCallback` throws `"State mismatch"`, issues no token-endpoint
request, leaves the stored tokens unchanged, and does not touch the URL. -/
theorem handleRedirectCallback_state_mismatch
    (url : CallbackUrl) (ls : LS) (now : Nat) (resp : TokenResp)
    (hcode : truthyS url.code)
    (hstate : url.state = none ∨ url.state ≠ ls.oauthState) :
    handleRedirectCallback url ls now resp =
      ⟨.error "State mismatch", ls, 0, false⟩ := by
  have hbranch : ¬ truthyS url.state ∨ url.state ≠ ls.oauthState := by
    rcases hstate with h | h
    · left; simp [h, truthyS]
    · right; exact h
  simp only [handleRedirectCallback]
  rw [if_neg (by simpa using hcode), if_pos hbranch]

theorem handleRedirectCallback_state_mismatch_witness :
    handleRedirectCallback ⟨some "c", some "x"⟩ ⟨some "v", some "y", none, none, none⟩ 0
        ⟨true, some "a", some 3600, none⟩ =
      ⟨.error "State mismatch", ⟨some "v", some "y", none, none, none⟩, 0, false⟩ :=
  handleRedirectCallback_state_mismatch _ _ _ _ (by decide) (by decide)

/-- C2: `getValidAccessToken` (i) returns the stored access token without
any request while `now < storedExpiry - 30000`; (ii) when the stored token
is not usable and a (non-empty) refresh token is stored, issues exactly one
refresh exchange and returns the new access token on success; (iii) returns
`null` with no request when no refresh token exists; (iv) returns `null`
after exactly one request when the refresh exchange has non-success
status. -/
theorem getValidAccessToken_spec (now : Nat) (ls : LS) (resp : TokenResp) :
    (∀ t e, ls.token = some t → t ≠ "" → ls.tokenExpiry = some e →
      now + 30000 < e →
      getValidAccessToken now ls resp = (some t, ls, 0)) ∧
    (getStoredAccessToken now ls = none → truthyS ls.refreshToken →
      resp.ok = true → ∀ a, resp.access_token = some a → a ≠ "" →
      getValidAccessToken now ls resp =
        (some a, storeTokenResponse now resp ls, 1)) ∧
    (getStoredAccessToken now ls = none → ¬ truthyS ls.refreshToken →
      getValidAccessToken now ls resp = (none, ls, 0)) ∧
    (getStoredAccessToken now ls = none → truthyS ls.refreshToken →
      resp.ok = false →
      getValidAccessToken now ls resp = (none, ls, 1)) := by
  refine ⟨?_, ?_, ?_, ?_⟩
  · intro t e htok htne hexp hlt
    have hstored : getStoredAccessToken now ls = some t := by
      simp only [getStoredAccessToken, htok, hexp, truthyS, Option.getD_some]
      rw [if_neg (by simp [htne]; omega), if_neg (by omega)]
    simp [getValidAccessToken, hstored]
  · intro hstored hrt hok a ha hane
    simp only [getValidAccessToken, hstored, refreshAccessToken]
    rw [if_neg (by simp [hrt]), if_neg (by simp [hok]), ha]
    simp [truthyS, hane]
  · intro hstored hrt
    simp only [getValidAccessToken, hstored, refreshAccessToken]
    rw [if_pos hrt]
  · intro hstored hrt hok
    simp only [getValidAccessToken, hstored, refreshAccessToken]
    rw [if_neg (by simp [hrt]), if_pos (by simp [hok])]

theorem getValidAccessToken_spec_witness :
    (getValidAccessToken 0 ⟨none, none, some "t", some 40000, none⟩
        ⟨true, some "a", some 3600, none⟩ =
      (some "t", ⟨none, none, some "t", some 40000, none⟩, 0)) ∧
    (getValidAccessToken 0 ⟨none, none, none, none, some "r"⟩
        ⟨true, some "a", some 3600, none⟩ =
      (some "a",
        storeTokenResponse 0 ⟨true, some "a", some 3600, none⟩
          ⟨none, none, none, none, some "r"⟩, 1)) ∧
    (getValidAccessToken 0 ⟨none, none, none, none, none⟩
        ⟨true, some "a", some 3600, none⟩ =
      (none, ⟨none, none, none, none, none⟩, 0)) ∧
    (getValidAccessToken 0 ⟨none, none, none, none, some "r"⟩
        ⟨false, some "a", some 3600, none⟩ =
      (none, ⟨none, none, none, none, some "r"⟩, 1)) :=
  ⟨(getValidAccessToken_spec 0 _ _).1 "t" 40000 rfl (by decide) rfl (by omega),
    (getValidAccessToken_spec 0 _ _).2.1 (by decide) (by decide) rfl "a" rfl (by decide),
    (getValidAccessToken_spec 0 _ _).2.2.1 (by decide) (by decide),
    (getValidAccessToken_spec 0 _ _).2.2.2 (by decide) (by decide) rfl⟩

/-- C8: a token-endpoint response that omits `refresh_token` leaves the
previously stored refresh token exactly as it was. -/
theorem storeTokenResponse_preserves_refresh (now : Nat) (json : TokenResp)
    (ls : LS) (h : json.refresh_token = none) :
    (storeTokenResponse now json ls).refreshToken = ls.refreshToken := by
  simp [storeTokenResponse, h, truthyS]

theorem storeTokenResponse_preserves_refresh_witness :
    (storeTokenResponse 7 ⟨true, some "a", some 3600, none⟩
        ⟨none, none, some "old", some 1, some "keepme"⟩).refreshToken =
      some "keepme" :=
  storeTokenResponse_preserves_refresh 7 _ _ rfl

/-- C7 counterexample: for the non-2xx status 401 the source throws
`"Unauthorized"`, which is not the `ApiError` message carrying the
response status and body. -/
theorem apiFetch_401_counterexample :
    respOk 401 = false ∧
    apiFetch (some "tok") (⟨401, "boom", 0⟩ : ApiResp Nat) = .error "Unauthorized" ∧
    apiFetch (some "tok") (⟨401, "boom", 0⟩ : ApiResp Nat) ≠
      .error (apiErrorMsg 401 "boom") := by
  refine ⟨rfl, by decide, by decide⟩

/-- C7 amended: `apiFetch` fails with the unauthenticated error when no
valid (non-empty) access token is obtainable; for a 401 response it fails
with the distinct `"Unauthorized"` error (carrying neither status nor
body); for every other non-2xx response it fails with the `ApiError`
message carrying the response status and body. -/
theorem apiFetch_error_spec {J : Type} (token : Option String) (resp : ApiResp J) :
    (¬ truthyS token → apiFetch token resp = .error "Not authenticated with Spotify") ∧
    (truthyS token → resp.status = 401 → apiFetch token resp = .error "Unauthorized") ∧
    (truthyS token → resp.status ≠ 401 → respOk resp.status = false →
      apiFetch token resp = .error (apiErrorMsg resp.status resp.body)) := by
  refine ⟨?_, ?_, ?_⟩
  · intro h
    simp only [apiFetch]
    rw [if_pos h]
  · intro h h401
    simp only [apiFetch]
    rw [if_neg (by simp [h]), if_pos h401]
  · intro h h401 hok
    simp only [apiFetch]
    rw [if_neg (by simp [h]), if_neg h401, if_pos (by simp [hok])]

theorem apiFetch_error_spec_witness :
    (apiFetch none (⟨200, "", 0⟩ : ApiResp Nat) =
      .error "Not authenticated with Spotify") ∧
    (apiFetch (some "t") (⟨401, "b", 0⟩ : ApiResp Nat) = .error "Unauthorized") ∧
    (apiFetch (some "t") (⟨500, "oops", 0⟩ : ApiResp Nat) =
      .error (apiErrorMsg 500 "oops")) :=
  ⟨(apiFetch_error_spec none _).1 (by decide),
    (apiFetch_error_spec (some "t") _).2.1 (by decide) rfl,
    (apiFetch_error_spec (some "t") _).2.2 (by decide) (by decide) rfl⟩

/-- C4: saving a collection `X` to the tiered cache and loading returns a
record whose `data` is `X` and whose `createdAt` is the save call's clock
reading; and when the primary (IndexedDB) tier yields no record after the
save, `loadPlaylistsCache` still returns the fallback-tier copy of the
same data. -/
theorem tieredCache_round_trip {α : Type} (now : Nat) (X : α)
    (user : Option UserInput) (st : CacheState α) :
    loadPlaylistsCache (savePlaylistsCache now X user st).2 =
      some ⟨X, userSummary user, some now⟩ ∧
    (loadPlaylistsCache (⟨none, ((savePlaylistsCache now X user st).2).backup⟩ :
        CacheState α)).map (fun r => r.playlists) = some X ∧
    (savePlaylistsCache now X user st).1 = now := by
  refine ⟨rfl, ?_, rfl⟩
  simp [savePlaylistsCache, loadPlaylistsCache]

/-- The named-playlists loop on an all-successful run: every playlist is
requested once, in order, and the entries appear in endpoint order. -/
theorem assembleNamed_ok {τ E : Type} (fetchTracks : String → Except E (List τ))
    (g : PlaylistMeta → List τ) :
    ∀ playlists : List PlaylistMeta,
      (∀ p ∈ playlists, fetchTracks p.id = .ok (g p)) →
      assembleNamed fetchTracks playlists =
        (playlists.map (fun p => p.id),
          .ok (playlists.map (fun p => mkNamed p (g p)))) := by
  intro playlists
  induction playlists with
  | nil => intro _; rfl
  | cons p rest ih =>
    intro h
    have hp := h p (List.mem_cons_self p rest)
    have hrest := ih (fun q hq => h q (List.mem_cons_of_mem p hq))
    simp [assembleNamed, hp, hrest]

/-- The named-playlists loop on a run whose first failure is at playlist
`p`: the loop requests exactly the playlists up to and including `p` and
rejects with `p`'s error. -/
theorem assembleNamed_error {τ E : Type} (fetchTracks : String → Except E (List τ))
    (e : E) (p : PlaylistMeta) :
    ∀ (pre : List PlaylistMeta) (post : List PlaylistMeta),
      (∀ q ∈ pre, ∃ ts, fetchTracks q.id = .ok ts) →
      fetchTracks p.id = .error e →
      assembleNamed fetchTracks (pre ++ p :: post) =
        (pre.map (fun q => q.id) ++ [p.id], .error e) := by
  intro pre
  induction pre with
  | nil =>
    intro post _ hp
    simp [assembleNamed, hp]
  | cons q rest ih =>
    intro post hok hp
    obtain ⟨ts, hts⟩ := hok q (List.mem_cons_self q rest)
    have hrest := ih post (fun r hr => hok r (List.mem_cons_of_mem q hr)) hp
    simp [assembleNamed, hts, hrest]

/-- C5: a liked-songs failure is swallowed — assembly proceeds exactly as
the named-playlists loop alone, omitting the virtual playlist — while a
failure on a named playlist's tracks propagates and aborts the loop: no
playlist after the failing one is requested. -/
theorem assembler_failure_policy {τ E : Type} :
    (∀ (playlists : List PlaylistMeta) (e : E)
        (fetchTracks : String → Except E (List τ)),
      getPlaylistsWithTracks playlists (.error e) fetchTracks =
        assembleNamed fetchTracks playlists) ∧
    (∀ (pre post : List PlaylistMeta) (p : PlaylistMeta) (e : E)
        (liked : Except E (List τ)) (fetchTracks : String → Except E (List τ)),
      (∀ q ∈ pre, ∃ ts, fetchTracks q.id = .ok ts) →
      fetchTracks p.id = .error e →
      getPlaylistsWithTracks (pre ++ p :: post) liked fetchTracks =
        (pre.map (fun q => q.id) ++ [p.id], .error e)) := by
  constructor
  · intro playlists e fetchTracks
    rcases h : assembleNamed fetchTracks playlists with ⟨log, r⟩
    cases r <;> simp [getPlaylistsWithTracks, h]
  · intro pre post p e liked fetchTracks hok hp
    have h := assembleNamed_error fetchTracks e p pre post hok hp
    cases liked <;> simp [getPlaylistsWithTracks, h]

theorem assembler_failure_policy_witness :
    (getPlaylistsWithTracks (τ := Nat) (E := String) [] (.error "liked down")
        (fun _ => .ok []) =
      assembleNamed (fun _ => .ok []) []) ∧
    (getPlaylistsWithTracks (τ := Nat) (E := String)
        [⟨"a", "A", none⟩, ⟨"b", "B", none⟩] (.ok [])
        (fun _ => .error "boom") =
      (["a"], .error "boom")) :=
  ⟨assembler_failure_policy.1 [] "liked down" _,
    assembler_failure_policy.2 [] [⟨"b", "B", none⟩] ⟨"a", "A", none⟩ "boom"
      (.ok []) _ (by simp) rfl⟩

/-- C10: whenever the liked-songs fetch succeeds (and assembly completes),
the result places the virtual playlist first — with the sentinel id
`liked-songs-virtual` and the raw marker `{type: virtual, source:
liked_songs}` — followed by the named playlists in endpoint order. -/
theorem assembler_virtual_first {τ E : Type} (playlists : List PlaylistMeta)
    (likedTs : List τ) (g : PlaylistMeta → List τ)
    (fetchTracks : String → Except E (List τ))
    (hok : ∀ p ∈ playlists, fetchTracks p.id = .ok (g p)) :
    getPlaylistsWithTracks playlists (.ok likedTs) fetchTracks =
      (playlists.map (fun p => p.id),
        .ok (likedVirtual likedTs :: playlists.map (fun p => mkNamed p (g p)))) ∧
    (likedVirtual likedTs).id = "liked-songs-virtual" ∧
    (likedVirtual likedTs).raw = .virt "virtual" "liked_songs" := by
  refine ⟨?_, rfl, rfl⟩
  have h := assembleNamed_ok fetchTracks g playlists hok
  simp [getPlaylistsWithTracks, h]

theorem assembler_virtual_first_witness :
    getPlaylistsWithTracks (τ := Nat) (E := String) [⟨"a", "A", none⟩] (.ok [7])
        (fun _ => .ok [1, 2]) =
      (["a"], .ok [likedVirtual [7], mkNamed ⟨"a", "A", none⟩ [1, 2]]) :=
  (assembler_virtual_first [⟨"a", "A", none⟩] [7] (fun _ => [1, 2]) _
    (by intro p hp; simp)).1

/-- A truthy optional string is a concrete non-empty string. -/
theorem truthyS_iff (o : Option String) :
    truthyS o = true ↔ ∃ v, o = some v ∧ v ≠ "" := by
  cases o with
  | none => simp [truthyS]
  | some v => simp [truthyS]

/-- C6: on a well-formed cursor chain (every page but the last carries a
truthy `next`, the last does not), the paginated fetcher returns the
concatenation of every page's mapped items in page order, and its request
log is the start URL followed by each page's `next` pointer — one request
per page, each issued only after the previous page resolved. -/
theorem fetchAllPages_follows_next {ι α : Type} (mapper : ι → α) (u0 : String)
    (pages : List (Page ι)) (h0 : u0 ≠ "") (hne : pages ≠ [])
    (hmid : ∀ pg ∈ pages.dropLast, truthyS pg.next)
    (hlast : ∀ pg, pages.getLast? = some pg → ¬ truthyS pg.next) :
    fetchAllPages mapper (some u0) pages =
      ((pages.map (fun pg => (pg.items.getD []).map mapper)).flatten,
        u0 :: pages.dropLast.map (fun pg => pg.next.getD "")) ∧
    (fetchAllPages mapper (some u0) pages).2.length = pages.length := by
  have main : ∀ (ps : List (Page ι)) (u : String), u ≠ "" → ps ≠ [] →
      (∀ pg ∈ ps.dropLast, truthyS pg.next) →
      (∀ pg, ps.getLast? = some pg → ¬ truthyS pg.next) →
      fetchAllPages mapper (some u) ps =
        ((ps.map (fun pg => (pg.items.getD []).map mapper)).flatten,
          u :: ps.dropLast.map (fun pg => pg.next.getD "")) := by
    intro ps
    induction ps with
    | nil => intro u _ hne' _ _; exact absurd rfl hne'
    | cons p rest ih =>
      intro u hu _ hmid' hlast'
      cases rest with
      | nil =>
        have hp : ¬ truthyS p.next := hlast' p rfl
        rw [fetchAllPages]
        rw [if_neg (by simp [truthyS, hu])]
        rw [fetchAllPages]
        rw [if_pos (by simpa using hp)]
        simp [truthyS, hu]
      | cons q rest' =>
        have hp : truthyS p.next := hmid' p (by simp)
        obtain ⟨v, hv, hvne⟩ := (truthyS_iff p.next).mp hp
        have hrest := ih v hvne (by simp)
          (fun pg hpg => hmid' pg (by
            rw [List.dropLast_cons_of_ne_nil (by simp)]
            exact List.mem_cons_of_mem p hpg))
          (fun pg hpg => hlast' pg (by rw [List.getLast?_cons_cons]; exact hpg))
        rw [fetchAllPages]
        rw [if_neg (by simp [truthyS, hu])]
        rw [hv, hrest]
        simp [List.dropLast_cons_of_ne_nil, hv]
  have h := main pages u0 h0 hne hmid hlast
  refine ⟨h, ?_⟩
  rw [h]
  have hlen : 0 < pages.length := List.length_pos.mpr hne
  simp only [List.length_cons, List.length_map, List.length_dropLast]
  omega

theorem fetchAllPages_follows_next_witness :
    fetchAllPages (fun (n : Nat) => n) (some "u0")
        [⟨some [1, 2], some "p2"⟩, ⟨some [3], none⟩] = ([1, 2, 3], ["u0", "p2"]) ∧
    (fetchAllPages (fun (n : Nat) => n) (some "u0")
        [⟨some [1, 2], some "p2"⟩, ⟨some [3], none⟩]).2.length = 2 := by
  have h := fetchAllPages_follows_next (fun (n : Nat) => n) "u0"
      [⟨some [1, 2], some "p2"⟩, ⟨some [3], none⟩] (by decide) (by simp)
      (by intro pg hpg; simp at hpg; subst hpg; decide)
      (by intro pg hpg; simp at hpg; subst hpg; decide)
  exact ⟨h.1.trans (by simp), h.2.trans (by decide)⟩

theorem getD_map_char (f : Char → Char) (l : List Char) :
    ∀ (n : Nat) (d : Char), (l.map f).getD n (f d) = f (l.getD n d) := by
  induction l with
  | nil => intro n d; rfl
  | cons a tl ih =>
    intro n d
    cases n with
    | zero => rfl
    | succ m => simp [List.getD, ih m d]

/-- The base64url alphabet is the image of the standard alphabet under the
two `.replace` substitutions. -/
theorem b64UrlAlphabet_eq_map : b64UrlAlphabet = b64Alphabet.map urlSafeChar := by
  decide

theorem urlSafeChar_b64Char (n : Nat) : urlSafeChar (b64Char n) = b64UrlChar n := by
  rw [b64Char, b64UrlChar, b64UrlAlphabet_eq_map]
  exact (getD_map_char urlSafeChar b64Alphabet n 'A').symm

theorem urlSafeChar_eqSign : urlSafeChar '=' = '=' := rfl

/-- `btoa` followed by the character substitutions is the unpadded
base64url encoding followed by the `'='` padding block. -/
theorem map_urlSafe_btoaChunks : ∀ bs : List Nat,
    (btoaChunks bs).map urlSafeChar =
      base64UrlEncode bs ++ List.replicate (padLen bs.length) '='
  | [] => rfl
  | [a] => by
      simp [btoaChunks, base64UrlEncode, padLen, urlSafeChar_b64Char,
        urlSafeChar_eqSign, List.replicate]
  | [a, b] => by
      simp [btoaChunks, base64UrlEncode, padLen, urlSafeChar_b64Char,
        urlSafeChar_eqSign, List.replicate]
  | a :: b :: c :: rest => by
      have ih := map_urlSafe_btoaChunks rest
      have hmod : (rest.length + 1 + 1 + 1) % 3 = rest.length % 3 := by omega
      simp [btoaChunks, base64UrlEncode, ih, urlSafeChar_b64Char, padLen, hmod]

theorem b64UrlChar_mem (n : Nat) : b64UrlChar n ∈ b64UrlAlphabet := by
  rw [b64UrlChar, List.getD_eq_getElem?_getD]
  cases h : b64UrlAlphabet[n]? with
  | none => simp [Option.getD]; decide
  | some c => simpa [Option.getD] using List.getElem?_mem h

theorem mem_base64UrlEncode : ∀ (bs : List Nat) (ch : Char),
    ch ∈ base64UrlEncode bs → ch ∈ b64UrlAlphabet
  | [], ch, h => absurd h (List.not_mem_nil ch)
  | [a], ch, h => by
      rcases (by simpa [base64UrlEncode] using h : _ ∨ _) with h1 | h1 <;>
        (subst h1; exact b64UrlChar_mem _)
  | [a, b], ch, h => by
      rcases (by simpa [base64UrlEncode] using h : _ ∨ _ ∨ _) with h1 | h1 | h1 <;>
        (subst h1; exact b64UrlChar_mem _)
  | a :: b :: c :: rest, ch, h => by
      rcases (by simpa [base64UrlEncode] using h : _ ∨ _ ∨ _ ∨ _ ∨ _) with
        h1 | h1 | h1 | h1 | h1
      · subst h1; exact b64UrlChar_mem _
      · subst h1; exact b64UrlChar_mem _
      · subst h1; exact b64UrlChar_mem _
      · subst h1; exact b64UrlChar_mem _
      · exact mem_base64UrlEncode rest ch h1

theorem dropWhile_replicate_append (k : Nat) (v : List Char) :
    (List.replicate k '=' ++ v).dropWhile (fun ch => ch = '=') =
      v.dropWhile (fun ch => ch = '=') := by
  induction k with
  | zero => rfl
  | succ m ih => simp [List.replicate_succ, List.dropWhile_cons, ih]

/-- Stripping trailing `'='` from `u ++ '='*k` recovers `u` when `u` itself
contains no `'='`. -/
theorem dropTrailingEq_append (u : List Char) (k : Nat) (h : '=' ∉ u) :
    dropTrailingEq (u ++ List.replicate k '=') = u := by
  rw [dropTrailingEq, List.reverse_append, List.reverse_replicate,
    dropWhile_replicate_append]
  cases hu : u.reverse with
  | nil =>
    have hnil : u = [] := List.reverse_eq_nil_iff.mp hu
    simp [hnil]
  | cons c t =>
    have hc : c ∈ u := List.mem_reverse.mp (hu ▸ List.mem_cons_self c t)
    have hcne : ¬(c = '=') := fun he => h (he ▸ hc)
    rw [List.dropWhile_cons, if_neg (by simpa using hcne), ← hu,
      List.reverse_reverse]

theorem eqSign_not_mem_url : '=' ∉ b64UrlAlphabet := by decide

/-- The source's `uint8ToBase64Url` agrees with the spec-side base64url
encoder on every byte sequence. -/
theorem uint8ToBase64Url_eq_base64UrlEncode (bs : List Nat) :
    uint8ToBase64Url bs = base64UrlEncode bs := by
  rw [uint8ToBase64Url, map_urlSafe_btoaChunks]
  exact dropTrailingEq_append _ _
    (fun hmem => eqSign_not_mem_url (mem_base64UrlEncode _ _ hmem))

theorem length_generateRandomString : ∀ bytes : List Nat,
    (generateRandomString bytes).length = 2 * bytes.length
  | [] => rfl
  | b :: tl => by
      have ih := length_generateRandomString tl
      simp only [generateRandomString, List.map_cons, List.flatten_cons,
        List.length_append, List.length_cons] at *
      simp only [byteToHex, List.length_cons, List.length_nil]
      omega

/-- C3: the PKCE material `beginLogin` generates has a code verifier of
length 128 ≥ 43 (64 random bytes hex-encoded), and the code challenge
placed in the authorization URL equals base64url(SHA-256(codeVerifier)):
it contains no `'+'` or `'/'` and does not end in `'='`. -/
theorem pkce_material_spec (sha : String → List Nat)
    (verifierBytes stateBytes : List Nat) (hlen : verifierBytes.length = 64) :
    43 ≤ (beginLoginMaterial sha verifierBytes stateBytes).codeVerifier.length ∧
    (beginLoginMaterial sha verifierBytes stateBytes).codeChallenge =
      base64UrlEncode
        (sha (String.mk (beginLoginMaterial sha verifierBytes stateBytes).codeVerifier)) ∧
    '+' ∉ (beginLoginMaterial sha verifierBytes stateBytes).codeChallenge ∧
    '/' ∉ (beginLoginMaterial sha verifierBytes stateBytes).codeChallenge ∧
    (beginLoginMaterial sha verifierBytes stateBytes).codeChallenge.getLast? ≠
      some '=' := by
  have hch : (beginLoginMaterial sha verifierBytes stateBytes).codeChallenge =
      base64UrlEncode
        (sha (String.mk (beginLoginMaterial sha verifierBytes stateBytes).codeVerifier)) :=
    uint8ToBase64Url_eq_base64UrlEncode _
  refine ⟨?_, hch, ?_, ?_, ?_⟩
  · show 43 ≤ (generateRandomString verifierBytes).length
    rw [length_generateRandomString, hlen]
    omega
  · rw [hch]
    intro hmem
    exact absurd (mem_base64UrlEncode _ _ hmem) (by decide)
  · rw [hch]
    intro hmem
    exact absurd (mem_base64UrlEncode _ _ hmem) (by decide)
  · rw [hch]
    intro hlast
    obtain ⟨ys, hys⟩ := List.getLast?_eq_some_iff.mp hlast
    have hmem : '=' ∈ base64UrlEncode
        (sha (String.mk (beginLoginMaterial sha verifierBytes stateBytes).codeVerifier)) := by
      rw [hys]
      simp
    exact eqSign_not_mem_url (mem_base64UrlEncode _ _ hmem)

theorem pkce_material_spec_witness :
    43 ≤ (beginLoginMaterial (fun _ => [0]) (List.replicate 64 255) []).codeVerifier.length ∧
    (beginLoginMaterial (fun _ => [0]) (List.replicate 64 255) []).codeChallenge =
      base64UrlEncode
        ((fun (_ : String) => [0])
          (String.mk (beginLoginMaterial (fun _ => [0]) (List.replicate 64 255) []).codeVerifier)) ∧
    '+' ∉ (beginLoginMaterial (fun _ => [0]) (List.replicate 64 255) []).codeChallenge ∧
    '/' ∉ (beginLoginMaterial (fun _ => [0]) (List.replicate 64 255) []).codeChallenge ∧
    (beginLoginMaterial (fun _ => [0]) (List.replicate 64 255) []).codeChallenge.getLast? ≠
      some '=' :=
  pkce_material_spec (fun _ => [0]) (List.replicate 64 255) [] (by simp)

end PlayListory
